import Mathlib

/-
Shallow embedding of the kenzastore/todo-api repository (src/main.go).

The repository bundles three HTTP service variants:
  * an unauthenticated MySQL-backed notes CRUD service,
  * an in-memory todo CRUD service guarded by one mutex,
  * an authenticated MySQL-backed notes service with per-user ownership
    (register / login / logout / check-auth plus owner-scoped notes CRUD).

The embedding below models the authenticated notes variant (namespace
`NotesAuth`) and the in-memory todo variant (namespace `TodosMem`).
HTTP routing, JSON (de)serialization and the storage engine are external
collaborators; they are modelled at their contract level: a handler takes
the already-decoded request body (`Option body`, `none` = malformed JSON),
the path id already stripped of its "/notes/" prefix, and the store state,
and returns a response value together with the new store state.  The
MySQL row store is modelled as a list of rows plus the AUTO_INCREMENT
counter; `WHERE` clauses become filters over the rows, exactly mirroring
the parameterized statements in the source.
-/

namespace TodoApi

/-- Embedding of Go `unicode.IsSpace` (the character set trimmed by
`strings.TrimSpace`): '\t', '\n', '\v', '\f', '\r', ' ', NEL, NBSP and the
Unicode White_Space code points. -/
def goIsSpace (c : Char) : Bool :=
  let n := c.toNat
  n == 0x20 || n == 0x09 || n == 0x0A || n == 0x0B || n == 0x0C || n == 0x0D ||
  n == 0x85 || n == 0xA0 || n == 0x1680 || (0x2000 ≤ n && n ≤ 0x200A) ||
  n == 0x2028 || n == 0x2029 || n == 0x202F || n == 0x205F || n == 0x3000

/-- Embedding of Go `strings.TrimSpace`: drop leading and trailing
white-space characters. -/
def trimSpace (s : String) : String :=
  String.mk (((s.data.dropWhile goIsSpace).reverse.dropWhile goIsSpace).reverse)

/-- Digit run to number, most significant digit first (the accumulation
`strconv` performs while scanning a decimal literal). -/
def digitsToNat (ds : List Char) : Nat :=
  ds.foldl (fun acc d => acc * 10 + (d.toNat - 48)) 0

/-- Embedding of Go `strconv.Atoi` on a 64-bit platform: an optional sign
followed by at least one ASCII digit, rejecting anything else and values
outside the signed 64-bit range (both make `Atoi` return a non-nil error,
which every caller in the source treats as failure). -/
def atoi (s : String) : Option Int :=
  let parse : Bool → List Char → Option Int := fun neg ds =>
    if ds.isEmpty then none
    else if ds.all Char.isDigit then
      let v : Int := if neg then -(digitsToNat ds : Int) else (digitsToNat ds : Int)
      if v < -(2 ^ 63) ∨ (2 ^ 63 - 1) < v then none else some v
    else none
  match s.data with
  | '-' :: rest => parse true rest
  | '+' :: rest => parse false rest
  | rest => parse false rest

/-- Wrap-around of Go `int` (64-bit two's complement) arithmetic. -/
def wrap64 (n : Int) : Int :=
  (n + 2 ^ 63) % 2 ^ 64 - 2 ^ 63

end TodoApi

namespace NotesAuth

open TodoApi

/-- Row of the `users(id, username, password)` table; `password` holds the
bcrypt hash string, never the plaintext (the handler hashes before the
INSERT). -/
structure User where
  id : Int
  username : String
  password : String
deriving DecidableEq, Repr

/-- Row of the `notes(id, user_id, title, content)` table of the
authenticated variant. -/
structure Note where
  id : Int
  userID : Int
  title : String
  content : String
deriving DecidableEq, Repr

/-- The `users` table: rows plus the AUTO_INCREMENT counter (MySQL starts
it at 1). -/
structure UsersTable where
  rows : List User
  nextId : Int
deriving DecidableEq, Repr

/-- The `notes` table: rows plus the AUTO_INCREMENT counter. -/
structure NotesTable where
  rows : List Note
  nextId : Int
deriving DecidableEq, Repr

/-- Decoded JSON body of /register and /login requests. -/
structure CredBody where
  username : String
  password : String
deriving DecidableEq, Repr

/-- Decoded JSON body of note create/update requests. -/
structure NoteBody where
  title : String
  content : String
deriving DecidableEq, Repr

/-- The fields of the `http.Cookie` the handlers set.  `expires` is an
absolute timestamp in seconds. -/
structure Cookie where
  name : String
  value : String
  httpOnly : Bool
  expires : Int
deriving DecidableEq, Repr

/-- Seconds per hour; `time.Hour` in the embedding's time unit. -/
def secondsPerHour : Int := 3600

/-- Response of `registerHandler`: `http.Error` carries its message and
status, `created` is the bare 201 `WriteHeader`. -/
inductive RegisterResp where
  | badRequest (msg : String)
  | conflict (msg : String)
  | created
deriving DecidableEq, Repr

/-- Response of `loginHandler`; a successful login carries the cookie set
on the response. -/
inductive LoginResp where
  | badRequest (msg : String)
  | unauthorized (msg : String)
  | loggedIn (cookie : Cookie)
deriving DecidableEq, Repr

/-- Response of the note handlers: `badRequest`/`notFound` are
`http.Error` with message and status, `created` is 201 plus the JSON note,
`updated` is 200 plus the JSON note, `noContent` is the bare 204. -/
inductive NoteResp where
  | badRequest (msg : String)
  | notFound (msg : String)
  | created (n : Note)
  | updated (n : Note)
  | noContent
deriving DecidableEq, Repr

/-- Embedding of `registerHandler` (src/main.go lines 565-593).
`hash` stands for `bcrypt.GenerateFromPassword` (external library; total
here since its only failure modes, invalid cost or an over-72-byte
password, are not exercised by the claims).  The INSERT fails exactly when
the UNIQUE constraint on `username` is violated, which the handler maps to
409 Conflict.  There is no application-level check on the username: an
empty username is inserted like any other fresh username. -/
def registerHandler (hash : String → String) (body : Option CredBody)
    (t : UsersTable) : RegisterResp × UsersTable :=
  match body with
  | none => (.badRequest "invalid JSON", t)
  | some b =>
    let hashed := hash b.password
    if t.rows.any (fun u => decide (u.username = b.username)) then
      (.conflict "username already taken", t)
    else
      (.created, ⟨t.rows ++ [⟨t.nextId, b.username, hashed⟩], t.nextId + 1⟩)

/-- Embedding of `loginHandler` (src/main.go lines 595-631).
`check hash pw` stands for `bcrypt.CompareHashAndPassword` returning nil
(match).  `QueryRow ... WHERE username = ?` returns the first row with
that username (`find?`); no row makes both `Scan` fail and the handler
answer 401, the same response as a failed password comparison. -/
def loginHandler (check : String → String → Bool) (now : Int)
    (body : Option CredBody) (t : UsersTable) : LoginResp :=
  match body with
  | none => .badRequest "invalid JSON"
  | some b =>
    match t.rows.find? (fun u => decide (u.username = b.username)) with
    | none => .unauthorized "invalid credentials"
    | some u =>
      if check u.password b.password then
        .loggedIn ⟨"session_token", toString u.id, true, now + 24 * secondsPerHour⟩
      else
        .unauthorized "invalid credentials"

/-- Embedding of `logoutHandler` (src/main.go lines 633-641): set the
session cookie to the empty value with an expiry one hour in the past. -/
def logoutHandler (now : Int) : Cookie :=
  ⟨"session_token", "", true, now - secondsPerHour⟩

/-- Embedding of `checkAuthHandler` (src/main.go lines 643-655): 200 when
the request carries a `session_token` cookie whose value `strconv.Atoi`
accepts, 401 otherwise.  The users table is never consulted, which the
type already shows: the function does not take a store. -/
def checkAuthHandler (cookie : Option String) : Nat :=
  match cookie with
  | none => 401
  | some v =>
    match atoi v with
    | none => 401
    | some _ => 200

/-- Embedding of `authMiddleware` (src/main.go lines 522-550): resolve the
`session_token` cookie to a user id, or reject with 401 (`none`). -/
def authMiddleware (cookie : Option String) : Option Int :=
  match cookie with
  | none => none
  | some v => atoi v

instance : IsTotal Note (fun a b => b.id ≤ a.id) :=
  ⟨fun a b => le_total b.id a.id⟩

instance : IsTrans Note (fun a b => b.id ≤ a.id) :=
  ⟨fun _ _ _ hab hbc => le_trans hbc hab⟩

/-- `SELECT id, user_id, title, content FROM notes WHERE user_id = ?
ORDER BY id DESC`: the rows owned by `uid`, sorted by id descending. -/
def sqlSelectNotesDesc (uid : Int) (rows : List Note) : List Note :=
  List.insertionSort (fun a b : Note => b.id ≤ a.id)
    (rows.filter (fun n => decide (n.userID = uid)))

/-- Embedding of `getNotesHandler` (src/main.go lines 679-702).  The Go
code accumulates rows by `append` into a `var notes []Note` nil slice, so
with zero rows the slice stays nil and `encoding/json` serializes it as
JSON `null`; `none` models that nil slice, `some rows` the non-empty
slice (a JSON array). -/
def getNotesHandler (uid : Int) (t : NotesTable) : Option (List Note) :=
  match sqlSelectNotesDesc uid t.rows with
  | [] => none
  | r => some r

/-- Embedding of `createNoteHandler` (src/main.go lines 704-738): reject a
blank (after trimming) title with 400, otherwise INSERT the trimmed title
and the content under the current user and answer 201 with the note built
from the request values and `LastInsertId`. -/
def createNoteHandler (uid : Int) (body : Option NoteBody)
    (t : NotesTable) : NoteResp × NotesTable :=
  match body with
  | none => (.badRequest "invalid JSON", t)
  | some b =>
    let title := trimSpace b.title
    if title = "" then
      (.badRequest "title is required", t)
    else
      let n : Note := ⟨t.nextId, uid, title, b.content⟩
      (.created n, ⟨t.rows ++ [n], t.nextId + 1⟩)

/-- `UPDATE notes SET title = ?, content = ? WHERE id = ? AND user_id = ?`:
the rewritten rows together with the number of rows the WHERE clause
matched (`RowsAffected`). -/
def sqlUpdateNotes (id uid : Int) (title content : String)
    (rows : List Note) : List Note × Nat :=
  (rows.map (fun n =>
      if n.id = id ∧ n.userID = uid then
        { n with title := title, content := content }
      else n),
   (rows.filter (fun n => decide (n.id = id ∧ n.userID = uid))).length)

/-- Embedding of `updateNoteHandler` (src/main.go lines 740-787).  `idStr`
is the path with "/notes/" stripped.  Checks run in source order: id
parse/positivity, JSON decode, blank title, then the owner-scoped UPDATE;
zero affected rows answer 404 whether the id is absent or owned by
someone else. -/
def updateNoteHandler (uid : Int) (idStr : String) (body : Option NoteBody)
    (t : NotesTable) : NoteResp × NotesTable :=
  match atoi idStr with
  | none => (.badRequest "invalid id", t)
  | some id =>
    if id ≤ 0 then (.badRequest "invalid id", t)
    else
      match body with
      | none => (.badRequest "invalid JSON", t)
      | some b =>
        let title := trimSpace b.title
        if title = "" then (.badRequest "title is required", t)
        else
          let r := sqlUpdateNotes id uid title b.content t.rows
          if r.2 = 0 then (.notFound "note not found or unauthorized", t)
          else (.updated ⟨id, uid, title, b.content⟩, ⟨r.1, t.nextId⟩)

/-- `DELETE FROM notes WHERE id = ? AND user_id = ?`: the surviving rows
together with the number of rows deleted (`RowsAffected`). -/
def sqlDeleteNotes (id uid : Int) (rows : List Note) : List Note × Nat :=
  (rows.filter (fun n => decide (¬(n.id = id ∧ n.userID = uid))),
   (rows.filter (fun n => decide (n.id = id ∧ n.userID = uid))).length)

/-- Embedding of `deleteNoteHandler` (src/main.go lines 789-811): id
validation as for update, then the owner-scoped DELETE; zero affected
rows answer 404, otherwise 204. -/
def deleteNoteHandler (uid : Int) (idStr : String)
    (t : NotesTable) : NoteResp × NotesTable :=
  match atoi idStr with
  | none => (.badRequest "invalid id", t)
  | some id =>
    if id ≤ 0 then (.badRequest "invalid id", t)
    else
      let r := sqlDeleteNotes id uid t.rows
      if r.2 = 0 then (.notFound "note not found or unauthorized", t)
      else (.noContent, ⟨r.1, t.nextId⟩)

/-- Concrete stand-in for `bcrypt.GenerateFromPassword`, used only to
instantiate the hash-parametric theorems on computable inputs. -/
def demoHash (s : String) : String := String.append "bcrypt$" s

/-- Concrete stand-in for `bcrypt.CompareHashAndPassword` matching
`demoHash`, used only to instantiate the check-parametric theorems. -/
def demoCheck (hash pw : String) : Bool := decide (hash = demoHash pw)

/-- Concrete users table used by the login witnesses. -/
def demoUsers : UsersTable := ⟨[⟨1, "alice", demoHash "pw"⟩], 2⟩

end NotesAuth

namespace TodosMem

open TodoApi

/-- Element of the in-memory `todos` slice. -/
structure Todo where
  id : Int
  title : String
  done : Bool
deriving DecidableEq, Repr

/-- The shared in-memory state guarded by the mutex: the `todos` slice and
the `nextID` counter (a Go `int`, initialised to 1).  The mutex serializes
every handler, so each handler is a pure transition on this state. -/
structure TodoState where
  todos : List Todo
  nextID : Int
deriving DecidableEq, Repr

/-- Decoded JSON body of POST /todos. -/
structure TodoCreateBody where
  title : String
deriving DecidableEq, Repr

/-- Decoded JSON body of PUT /todos/\x7bid\x7d. -/
structure TodoUpdateBody where
  title : String
  done : Bool
deriving DecidableEq, Repr

/-- Responses of the todo handlers, mirroring `http.Error` messages, the
JSON-encoded todo of create/update, and the bare 204 of delete. -/
inductive TodoResp where
  | badRequest (msg : String)
  | notFound (msg : String)
  | created (t : Todo)
  | updated (t : Todo)
  | noContent
deriving DecidableEq, Repr

/-- The package-level initial state: `todos = []Todo{}`, `nextID = 1`. -/
def initialTodoState : TodoState := ⟨[], 1⟩

/-- Embedding of `createTodoHandler` (src/main.go lines 269-296): reject a
blank (after trimming) title with 400; otherwise append a todo carrying
the UNTRIMMED request title, the current `nextID` and `Done = false`, and
increment the counter (with Go `int` wrap-around). -/
def createTodoHandler (body : Option TodoCreateBody)
    (st : TodoState) : TodoResp × TodoState :=
  match body with
  | none => (.badRequest "invalid JSON", st)
  | some b =>
    if trimSpace b.title = "" then (.badRequest "title is required", st)
    else
      let t : Todo := ⟨st.nextID, b.title, false⟩
      (.created t, ⟨st.todos ++ [t], wrap64 (st.nextID + 1)⟩)

/-- The in-place assignment of `updateTodoHandler`'s scan loop: rewrite
the first todo with the given id, leave everything else untouched. -/
def updateFirst (id : Int) (title : String) (done : Bool) :
    List Todo → List Todo
  | [] => []
  | t :: ts =>
    if t.id = id then { t with title := title, done := done } :: ts
    else t :: updateFirst id title done ts

/-- Embedding of `updateTodoHandler` (src/main.go lines 300-336): id and
body validation as in the source, then a linear scan for the first todo
with the given id; found: overwrite its title/done in place and echo it;
not found: 404. -/
def updateTodoHandler (idStr : String) (body : Option TodoUpdateBody)
    (st : TodoState) : TodoResp × TodoState :=
  match atoi idStr with
  | none => (.badRequest "invalid id", st)
  | some id =>
    if id ≤ 0 then (.badRequest "invalid id", st)
    else
      match body with
      | none => (.badRequest "invalid JSON", st)
      | some b =>
        if trimSpace b.title = "" then (.badRequest "title is required", st)
        else
          match st.todos.find? (fun t => decide (t.id = id)) with
          | none => (.notFound "todo not found", st)
          | some t =>
            (.updated ⟨t.id, b.title, b.done⟩,
             ⟨updateFirst id b.title b.done st.todos, st.nextID⟩)

/-- Embedding of `deleteTodoHandler` (src/main.go lines 339-364): id
validation, then a linear scan for the index of the first todo with the
given id; found: splice it out with `append(todos[:i], todos[i+1:]...)`;
not found: 404. -/
def deleteTodoHandler (idStr : String)
    (st : TodoState) : TodoResp × TodoState :=
  match atoi idStr with
  | none => (.badRequest "invalid id", st)
  | some id =>
    if id ≤ 0 then (.badRequest "invalid id", st)
    else
      match st.todos.findIdx? (fun t => decide (t.id = id)) with
      | none => (.notFound "todo not found", st)
      | some i =>
        (.noContent, ⟨st.todos.take i ++ st.todos.drop (i + 1), st.nextID⟩)

/-- One mutating request against the todo service (GET /todos does not
change the state). -/
inductive TodoOp where
  | createOp (body : Option TodoCreateBody)
  | updateOp (idStr : String) (body : Option TodoUpdateBody)
  | deleteOp (idStr : String)
deriving DecidableEq, Repr

/-- Dispatch of one request, as `todosHandler`/`todoItemHandler` do. -/
def todoStep : TodoOp → TodoState → TodoResp × TodoState
  | .createOp b, st => createTodoHandler b st
  | .updateOp s b, st => updateTodoHandler s b st
  | .deleteOp s, st => deleteTodoHandler s st

/-- Run a sequence of requests (the mutex serializes them). -/
def todoExec : List TodoOp → TodoState → TodoState
  | [], st => st
  | op :: ops, st => todoExec ops (todoStep op st).2

/-- The id assigned by one request: a successful create assigns exactly
one id, every other outcome assigns none. -/
def assignedId (op : TodoOp) (st : TodoState) : List Int :=
  match (todoStep op st).1 with
  | .created t => [t.id]
  | _ => []

/-- All ids assigned along a request sequence, in order. -/
def execAssigned : List TodoOp → TodoState → List Int
  | [], _ => []
  | op :: ops, st => assignedId op st ++ execAssigned ops (todoStep op st).2

/-- Number of create requests in a sequence (an upper bound on the number
of ids assigned). -/
def numCreates : List TodoOp → Nat
  | [] => 0
  | .createOp _ :: ops => numCreates ops + 1
  | _ :: ops => numCreates ops

/-- State invariant of the todo service: the counter is at least 1, the
ids in the slice are strictly increasing in slice order (hence unique),
and every id is below the counter. -/
def TodoInv (st : TodoState) : Prop :=
  1 ≤ st.nextID ∧
  List.Pairwise (· < ·) (st.todos.map (fun t => t.id)) ∧
  ∀ t ∈ st.todos, t.id < st.nextID

/-- Concrete request sequence used by the trace witnesses: create, delete
the created todo, create again. -/
def demoOps : List TodoOp :=
  [.createOp (some ⟨"a"⟩), .deleteOp "1", .createOp (some ⟨"b"⟩)]

end TodosMem

namespace TodoApi

theorem wrap64_eq_of_bounds (n : Int) (hlo : -(2 ^ 63) ≤ n) (hhi : n < 2 ^ 63) :
    wrap64 n = n := by
  have h0 : (0 : Int) ≤ n + 2 ^ 63 := by omega
  have h1 : n + 2 ^ 63 < 2 ^ 64 := by omega
  have := Int.emod_eq_of_lt h0 h1
  unfold wrap64
  omega

end TodoApi

namespace NotesAuth

open TodoApi

/-- Claim C8: GET /check-auth answers 200 exactly when the request carries
a `session_token` cookie whose value `strconv.Atoi` accepts — any integer,
zero and negative values included, with no lookup against the users table
(the handler takes no store at all) — and answers 401 otherwise. -/
theorem checkAuth_iff_parsable_cookie (cookie : Option String) :
    (checkAuthHandler cookie = 200 ↔ ∃ v, cookie = some v ∧ (atoi v).isSome) ∧
    (checkAuthHandler cookie = 200 ∨ checkAuthHandler cookie = 401) ∧
    checkAuthHandler (some "0") = 200 ∧
    checkAuthHandler (some "-1") = 200 ∧
    checkAuthHandler none = 401 := by
  refine ⟨?_, ?_, by decide, by decide, by decide⟩
  · cases cookie with
    | none => simp [checkAuthHandler]
    | some v =>
      cases ha : atoi v with
      | none => simp [checkAuthHandler, ha]
      | some id => simp [checkAuthHandler, ha]
  · cases cookie with
    | none => simp [checkAuthHandler]
    | some v =>
      cases ha : atoi v with
      | none => simp [checkAuthHandler, ha]
      | some id => simp [checkAuthHandler, ha]

/-- Claim C6: an Update or Delete whose path id `strconv.Atoi` rejects, or
parses to a non-positive integer, answers 400 "invalid id" and returns the
store untouched — the handler exits before building any SQL statement. -/
theorem invalid_id_rejected_before_storage (uid : Int) (idStr : String)
    (body : Option NoteBody) (t : NotesTable) :
    (atoi idStr = none →
      updateNoteHandler uid idStr body t = (.badRequest "invalid id", t) ∧
      deleteNoteHandler uid idStr t = (.badRequest "invalid id", t)) ∧
    (∀ id : Int, atoi idStr = some id → id ≤ 0 →
      updateNoteHandler uid idStr body t = (.badRequest "invalid id", t) ∧
      deleteNoteHandler uid idStr t = (.badRequest "invalid id", t)) := by
  constructor
  · intro h
    constructor <;> simp [updateNoteHandler, deleteNoteHandler, h]
  · intro id h hle
    constructor <;> simp [updateNoteHandler, deleteNoteHandler, h, hle]

/-- Witness for C6 at the concrete non-positive id "0". -/
theorem invalid_id_rejected_witness :
    updateNoteHandler 1 "0" (some ⟨"t", "c"⟩) ⟨[], 1⟩ =
      (.badRequest "invalid id", ⟨[], 1⟩) ∧
    deleteNoteHandler 1 "0" ⟨[], 1⟩ = (.badRequest "invalid id", ⟨[], 1⟩) :=
  (invalid_id_rejected_before_storage 1 "0" (some ⟨"t", "c"⟩) ⟨[], 1⟩).2 0
    (by decide) (by decide)

theorem loginHandler_success (check : String → String → Bool) (now : Int)
    (b : CredBody) (t : UsersTable) (u : User)
    (h : t.rows.find? (fun u => decide (u.username = b.username)) = some u)
    (hc : check u.password b.password = true) :
    loginHandler check now (some b) t =
      .loggedIn ⟨"session_token", toString u.id, true,
        now + 24 * secondsPerHour⟩ := by
  simp [loginHandler, h, hc]

/-- Claim C5: a login naming an unknown username and a login naming a
known username with a password the bcrypt comparison rejects produce the
very same response value — status 401 with body "invalid credentials" —
so neither reveals whether the username exists; correct credentials
answer 200 and set the session cookie. -/
theorem login_no_enumeration_signal (check : String → String → Bool)
    (now : Int) (b : CredBody) (t : UsersTable) :
    (t.rows.find? (fun u => decide (u.username = b.username)) = none →
      loginHandler check now (some b) t = .unauthorized "invalid credentials") ∧
    (∀ u, t.rows.find? (fun u => decide (u.username = b.username)) = some u →
      check u.password b.password = false →
      loginHandler check now (some b) t = .unauthorized "invalid credentials") ∧
    (∀ u, t.rows.find? (fun u => decide (u.username = b.username)) = some u →
      check u.password b.password = true →
      loginHandler check now (some b) t =
        .loggedIn ⟨"session_token", toString u.id, true,
          now + 24 * secondsPerHour⟩) := by
  refine ⟨fun h => ?_, fun u h hc => ?_, fun u h hc =>
    loginHandler_success check now b t u h hc⟩
  · simp [loginHandler, h]
  · simp [loginHandler, h, hc]

/-- Witness for C5 on the concrete table `demoUsers`: the unknown-user
response and the wrong-password response are the same value, and the
correct login sets the cookie. -/
theorem login_no_enumeration_witness :
    loginHandler demoCheck 0 (some ⟨"bob", "pw"⟩) demoUsers =
      .unauthorized "invalid credentials" ∧
    loginHandler demoCheck 0 (some ⟨"alice", "wrong"⟩) demoUsers =
      .unauthorized "invalid credentials" ∧
    loginHandler demoCheck 0 (some ⟨"alice", "pw"⟩) demoUsers =
      .loggedIn ⟨"session_token", "1", true, 86400⟩ := by
  refine ⟨?_, ?_, ?_⟩
  · exact (login_no_enumeration_signal demoCheck 0 ⟨"bob", "pw"⟩ demoUsers).1
      (by decide)
  · exact (login_no_enumeration_signal demoCheck 0 ⟨"alice", "wrong"⟩
      demoUsers).2.1 ⟨1, "alice", demoHash "pw"⟩ (by decide) (by decide)
  · have := (login_no_enumeration_signal demoCheck 0 ⟨"alice", "pw"⟩
      demoUsers).2.2 ⟨1, "alice", demoHash "pw"⟩ (by decide) (by decide)
    simpa [secondsPerHour] using this

/-- Claim C7: a successful login sets a cookie named `session_token`,
HttpOnly, whose value is the user id printed in decimal and whose absolute
expiry is 24 hours after issuance; logout sets the same cookie to the
empty value with an expiry strictly in the past, so the client drops the
token at once. -/
theorem session_cookie_spec (check : String → String → Bool) (now : Int)
    (b : CredBody) (t : UsersTable) :
    (∀ u c, t.rows.find? (fun u => decide (u.username = b.username)) = some u →
      check u.password b.password = true →
      loginHandler check now (some b) t = .loggedIn c →
      c.name = "session_token" ∧ c.value = toString u.id ∧
      c.httpOnly = true ∧ c.expires = now + 24 * secondsPerHour) ∧
    (logoutHandler now).name = "session_token" ∧
    (logoutHandler now).value = "" ∧
    (logoutHandler now).httpOnly = true ∧
    (logoutHandler now).expires < now := by
  refine ⟨fun u c h hc hrun => ?_, rfl, rfl, rfl, ?_⟩
  · rw [loginHandler_success check now b t u h hc] at hrun
    injection hrun with hck
    subst hck
    exact ⟨rfl, rfl, rfl, rfl⟩
  · simp [logoutHandler, secondsPerHour]

/-- Witness for C7: the concrete login above yields exactly the cookie
fields the claim names, and logout at time 100 expires in the past. -/
theorem session_cookie_witness :
    (Cookie.mk "session_token" "1" true 86400).name = "session_token" ∧
    (Cookie.mk "session_token" "1" true 86400).value = toString (1 : Int) ∧
    (Cookie.mk "session_token" "1" true 86400).httpOnly = true ∧
    (Cookie.mk "session_token" "1" true 86400).expires =
      0 + 24 * secondsPerHour ∧
    (logoutHandler 100).expires < 100 := by
  have h := session_cookie_spec demoCheck 0 ⟨"alice", "pw"⟩ demoUsers
  have hc := h.1 ⟨1, "alice", demoHash "pw"⟩
    (Cookie.mk "session_token" "1" true 86400) (by decide) (by decide)
    (by decide)
  exact ⟨hc.1, hc.2.1, hc.2.2.1, hc.2.2.2,
    (session_cookie_spec demoCheck 100 ⟨"alice", "pw"⟩ demoUsers).2.2.2.2⟩

/-- Claim C2 counterexample: a user owning no notes gets the nil slice —
`encoding/json` serializes a nil `[]Note` as JSON `null` — and not the
empty array the claim promises.  `none` is the embedding of the nil
slice, `some []` would be the empty array. -/
theorem getNotes_null_counterexample :
    getNotesHandler 7 ⟨[], 1⟩ = none ∧
    getNotesHandler 7 ⟨[], 1⟩ ≠ some ([] : List Note) := by decide

/-- Claim C2 as amended: List returns exactly the notes owned by the
current user (a permutation of the owner-filtered rows, so membership and
multiplicity agree), sorted by id descending, i.e. newest-first under the
AUTO_INCREMENT discipline; when the user owns no notes the handler
serializes the nil slice (JSON `null`, `none` here) rather than an empty
array, and otherwise it returns exactly the sorted rows. -/
theorem getNotes_owner_scoped (uid : Int) (t : NotesTable) :
    List.Perm (sqlSelectNotesDesc uid t.rows)
      (t.rows.filter (fun n => decide (n.userID = uid))) ∧
    (∀ n : Note, n ∈ sqlSelectNotesDesc uid t.rows ↔
      n ∈ t.rows ∧ n.userID = uid) ∧
    List.Sorted (fun a b : Note => b.id ≤ a.id)
      (sqlSelectNotesDesc uid t.rows) ∧
    (sqlSelectNotesDesc uid t.rows = [] → getNotesHandler uid t = none) ∧
    (∀ l, sqlSelectNotesDesc uid t.rows = l → l ≠ [] →
      getNotesHandler uid t = some l) := by
  have hperm := List.perm_insertionSort (fun a b : Note => b.id ≤ a.id)
    (t.rows.filter (fun n => decide (n.userID = uid)))
  refine ⟨hperm, fun n => ?_, List.sorted_insertionSort _ _, fun h => ?_,
    fun l hl hne => ?_⟩
  · rw [sqlSelectNotesDesc, List.mem_insertionSort, List.mem_filter]
    simp
  · rw [getNotesHandler, h]
  · rw [getNotesHandler, hl]
    cases l with
    | nil => exact absurd rfl hne
    | cons a as => rfl

/-- Witness for C2 (amended): a one-note table returns exactly that note,
and a user without notes gets the nil slice. -/
theorem getNotes_owner_scoped_witness :
    getNotesHandler 1 ⟨[⟨1, 1, "a", "b"⟩], 2⟩ = some [⟨1, 1, "a", "b"⟩] :=
  (getNotes_owner_scoped 1 ⟨[⟨1, 1, "a", "b"⟩], 2⟩).2.2.2.2
    [⟨1, 1, "a", "b"⟩] (by decide) (by decide)

/-- Claim C3 counterexample: for the request title " hi " the created
note carries the trimmed title "hi", not the request's title, so Create
does not echo the request's title verbatim. -/
theorem createNote_trimmed_echo_counterexample :
    (createNoteHandler 1 (some ⟨" hi ", "c"⟩) ⟨[], 1⟩).1 =
      .created ⟨1, 1, "hi", "c"⟩ ∧
    (" hi " : String) ≠ "hi" := by decide

/-- Claim C3 as amended: a Create whose title trims to the empty string
answers 400 and inserts nothing; otherwise it answers 201 with a note
carrying the generated id (the AUTO_INCREMENT counter, positive whenever
the counter is positive, as it is from its initial value 1 on), owned by
the creating user, echoing the TRIMMED title and the content verbatim,
and exactly that row is appended to the table. -/
theorem createNote_spec (uid : Int) (b : NoteBody) (t : NotesTable) :
    (trimSpace b.title = "" →
      createNoteHandler uid (some b) t = (.badRequest "title is required", t)) ∧
    (trimSpace b.title ≠ "" →
      createNoteHandler uid (some b) t =
        (.created ⟨t.nextId, uid, trimSpace b.title, b.content⟩,
         ⟨t.rows ++ [⟨t.nextId, uid, trimSpace b.title, b.content⟩],
          t.nextId + 1⟩)) ∧
    (0 < t.nextId → trimSpace b.title ≠ "" →
      ∃ n, (createNoteHandler uid (some b) t).1 = .created n ∧
        0 < n.id ∧ n.userID = uid ∧ n.title = trimSpace b.title ∧
        n.content = b.content) := by
  refine ⟨fun h => ?_, fun h => ?_, fun hpos h => ?_⟩
  · simp [createNoteHandler, h]
  · simp [createNoteHandler, h]
  · exact ⟨⟨t.nextId, uid, trimSpace b.title, b.content⟩,
      by simp [createNoteHandler, h], hpos, rfl, rfl, rfl⟩

/-- Witness for C3 (amended): both branches at concrete inputs. -/
theorem createNote_spec_witness :
    createNoteHandler 1 (some ⟨"  ", "c"⟩) ⟨[], 1⟩ =
      (.badRequest "title is required", ⟨[], 1⟩) ∧
    createNoteHandler 1 (some ⟨" hi ", "c"⟩) ⟨[], 1⟩ =
      (.created ⟨1, 1, "hi", "c"⟩, ⟨[⟨1, 1, "hi", "c"⟩], 2⟩) :=
  ⟨(createNote_spec 1 ⟨"  ", "c"⟩ ⟨[], 1⟩).1 (by decide),
   (createNote_spec 1 ⟨" hi ", "c"⟩ ⟨[], 1⟩).2.1 (by decide)⟩

/-- Claim C4 counterexample: registering the empty username against an
empty users table succeeds with 201 and inserts the row — the handler has
no username check at all, so empty usernames are NOT rejected with
Conflict. -/
theorem register_empty_username_counterexample :
    registerHandler demoHash (some ⟨"", "pw"⟩) ⟨[], 1⟩ =
      (.created, ⟨[⟨1, "", demoHash "pw"⟩], 2⟩) ∧
    (registerHandler demoHash (some ⟨"", "pw"⟩) ⟨[], 1⟩).1 ≠
      .conflict "username already taken" := by decide

/-- Claim C4 as amended: register rejects a duplicate username with 409
Conflict (uniqueness enforced by the storage constraint) leaving the
table unchanged; any not-yet-taken username — the empty username included
— is inserted with the bcrypt hash of the password in the password
column, so whenever the hash differs from the plaintext (as a bcrypt
digest always does) the plaintext is not stored. -/
theorem register_spec (hash : String → String) (b : CredBody)
    (t : UsersTable) :
    ((∃ u ∈ t.rows, u.username = b.username) →
      registerHandler hash (some b) t =
        (.conflict "username already taken", t)) ∧
    ((∀ u ∈ t.rows, u.username ≠ b.username) →
      registerHandler hash (some b) t =
        (.created,
         ⟨t.rows ++ [⟨t.nextId, b.username, hash b.password⟩],
          t.nextId + 1⟩)) ∧
    (hash b.password ≠ b.password →
      ∀ u ∈ (registerHandler hash (some b) t).2.rows,
        u ∉ t.rows → u.password ≠ b.password) := by
  refine ⟨fun h => ?_, fun h => ?_, fun hne u hu hnotin => ?_⟩
  · have : t.rows.any (fun u => decide (u.username = b.username)) = true := by
      rw [List.any_eq_true]
      obtain ⟨u, hu, he⟩ := h
      exact ⟨u, hu, by simp [he]⟩
    simp [registerHandler, this]
  · have : t.rows.any (fun u => decide (u.username = b.username)) = false := by
      rw [Bool.eq_false_iff]
      intro hc
      rw [List.any_eq_true] at hc
      obtain ⟨u, hu, he⟩ := hc
      exact h u hu (by simpa using he)
    simp [registerHandler, this]
  · rcases ha : t.rows.any (fun u => decide (u.username = b.username)) with _ | _
    · rw [registerHandler] at hu
      simp only [ha, Bool.false_eq_true, if_false] at hu
      rcases List.mem_append.mp hu with hin | hnew
      · exact absurd hin hnotin
      · have : u = ⟨t.nextId, b.username, hash b.password⟩ := by
          simpa using hnew
        rw [this]
        exact hne
    · rw [registerHandler] at hu
      simp only [ha, if_true] at hu
      exact absurd hu hnotin

/-- Witness for C4 (amended): duplicate username answers Conflict and a
fresh username is inserted as the hash, which differs from the
plaintext. -/
theorem register_spec_witness :
    registerHandler demoHash (some ⟨"alice", "pw"⟩) demoUsers =
      (.conflict "username already taken", demoUsers) ∧
    registerHandler demoHash (some ⟨"bob", "pw"⟩) demoUsers =
      (.created, ⟨demoUsers.rows ++ [⟨2, "bob", demoHash "pw"⟩], 3⟩) ∧
    ∀ u ∈ (registerHandler demoHash (some ⟨"bob", "pw"⟩) demoUsers).2.rows,
      u ∉ demoUsers.rows → u.password ≠ "pw" :=
  ⟨(register_spec demoHash ⟨"alice", "pw"⟩ demoUsers).1 (by decide),
   (register_spec demoHash ⟨"bob", "pw"⟩ demoUsers).2.1 (by decide),
   (register_spec demoHash ⟨"bob", "pw"⟩ demoUsers).2.2 (by decide)⟩

/-- Claim C1: for distinct users A and B, a List authenticated as A never
contains a note owned by B; and an Update or Delete authenticated as A
naming an id every holder of which is owned by B — which covers both "the
note is B's" and "no such note", making the two situations answer the
same literal 404 — leaves the store entirely unchanged and answers
NotFound. -/
theorem ownership_isolation (A B : Int) (t : NotesTable) (idStr : String)
    (id : Int) (b : NoteBody) :
    A ≠ B →
    (∀ l, getNotesHandler A t = some l → ∀ n ∈ l, n.userID ≠ B) ∧
    (atoi idStr = some id → 0 < id → trimSpace b.title ≠ "" →
      (∀ m ∈ t.rows, m.id = id → m.userID = B) →
      updateNoteHandler A idStr (some b) t =
        (.notFound "note not found or unauthorized", t) ∧
      deleteNoteHandler A idStr t =
        (.notFound "note not found or unauthorized", t)) := by
  intro hAB
  constructor
  · intro l hl n hn hB
    have hleq : l = sqlSelectNotesDesc A t.rows := by
      rw [getNotesHandler] at hl
      rcases hs : sqlSelectNotesDesc A t.rows with _ | ⟨a, as⟩
      · rw [hs] at hl; cases hl
      · rw [hs] at hl
        injection hl with he
        exact he.symm
    have hmem : n ∈ sqlSelectNotesDesc A t.rows := hleq ▸ hn
    have hA : n.userID = A := by
      rw [sqlSelectNotesDesc, List.mem_insertionSort, List.mem_filter] at hmem
      simpa using hmem.2
    exact hAB (by rw [← hA, hB])
  · intro hid hpos hti hB
    have hnle : ¬ id ≤ 0 := by omega
    have hkey : t.rows.filter (fun n => decide (n.id = id ∧ n.userID = A)) = [] := by
      rw [List.filter_eq_nil_iff]
      intro m hm
      simp only [decide_eq_true_eq]
      rintro ⟨hmid, hmA⟩
      exact hAB (by rw [← hmA, hB m hm hmid])
    constructor
    · simp [updateNoteHandler, hid, hnle, hti, sqlUpdateNotes, hkey]
      intro x hx hxid hxA
      exact hAB (by rw [← hxA, hB x hx hxid])
    · simp [deleteNoteHandler, hid, hnle, sqlDeleteNotes, hkey]
      intro x hx hxid hxA
      exact hAB (by rw [← hxA, hB x hx hxid])

/-- Witness for C1: user 1 lists only their own note and cannot update or
delete user 2's note with id 5 — 404, store unchanged. -/
theorem ownership_isolation_witness :
    (∀ n ∈ [Note.mk 3 1 "mine" "m"], n.userID ≠ 2) ∧
    updateNoteHandler 1 "5" (some ⟨"t", "c"⟩)
        ⟨[⟨3, 1, "mine", "m"⟩, ⟨5, 2, "theirs", "x"⟩], 6⟩ =
      (.notFound "note not found or unauthorized",
       ⟨[⟨3, 1, "mine", "m"⟩, ⟨5, 2, "theirs", "x"⟩], 6⟩) ∧
    deleteNoteHandler 1 "5"
        ⟨[⟨3, 1, "mine", "m"⟩, ⟨5, 2, "theirs", "x"⟩], 6⟩ =
      (.notFound "note not found or unauthorized",
       ⟨[⟨3, 1, "mine", "m"⟩, ⟨5, 2, "theirs", "x"⟩], 6⟩) := by
  have h := ownership_isolation 1 2
    ⟨[⟨3, 1, "mine", "m"⟩, ⟨5, 2, "theirs", "x"⟩], 6⟩ "5" 5 ⟨"t", "c"⟩
    (by decide)
  have h2 := h.2 (by decide) (by decide) (by decide) (by decide)
  exact ⟨h.1 [⟨3, 1, "mine", "m"⟩] (by decide), h2.1, h2.2⟩

/-- Claim C9: a successful Update rewrites title and content of exactly
the rows matching both the requested id and the current user (a single
row when ids are unique, as the primary key guarantees), keeps every id,
owner and every non-matching row unchanged, keeps the counter, and builds
the 200 response body from the request's values — id, current user,
trimmed title, content — not from a re-read of storage. -/
theorem updateNote_frame (uid : Int) (idStr : String) (id : Int)
    (b : NoteBody) (t : NotesTable) (n : Note) (st : NotesTable)
    (hid : atoi idStr = some id) (hpos : 0 < id)
    (hti : trimSpace b.title ≠ "")
    (hrun : updateNoteHandler uid idStr (some b) t = (.updated n, st)) :
    n = ⟨id, uid, trimSpace b.title, b.content⟩ ∧
    st.rows = t.rows.map (fun m =>
      if m.id = id ∧ m.userID = uid then
        { m with title := trimSpace b.title, content := b.content }
      else m) ∧
    st.nextId = t.nextId ∧
    (∀ m ∈ t.rows, ¬(m.id = id ∧ m.userID = uid) → m ∈ st.rows) ∧
    (∃ m ∈ t.rows, m.id = id ∧ m.userID = uid) := by
  have hnle : ¬ id ≤ 0 := by omega
  rw [updateNoteHandler] at hrun
  simp only [hid, hnle, if_false, hti, ite_false] at hrun
  by_cases hz : (sqlUpdateNotes id uid (trimSpace b.title) b.content t.rows).2 = 0
  · rw [if_pos hz] at hrun
    simp at hrun
  · rw [if_neg hz] at hrun
    injection hrun with h1 h2
    injection h1 with hn
    subst hn
    subst h2
    refine ⟨rfl, rfl, rfl, fun m hm hcond => ?_, ?_⟩
    · exact List.mem_map.mpr ⟨m, hm, by rw [if_neg hcond]⟩
    · rw [sqlUpdateNotes] at hz
      simp only [List.length_eq_zero] at hz
      have hne := hz
      rcases hf : t.rows.filter (fun m => decide (m.id = id ∧ m.userID = uid))
        with _ | ⟨x, xs⟩
      · exact absurd hf hne
      · have hx : x ∈ t.rows.filter
            (fun m => decide (m.id = id ∧ m.userID = uid)) := by
          rw [hf]; exact List.mem_cons_self x xs
        rw [List.mem_filter] at hx
        exact ⟨x, hx.1, by simpa using hx.2⟩

/-- Witness for C9: a concrete successful update touches only the
matching row and echoes the request values. -/
theorem updateNote_frame_witness :
    (Note.mk 3 1 "new" "nc") = ⟨3, 1, trimSpace " new ", "nc"⟩ ∧
    (NotesTable.mk [⟨3, 1, "new", "nc"⟩, ⟨4, 2, "b", "bb"⟩] 5).rows =
      ([⟨3, 1, "old", "o"⟩, ⟨4, 2, "b", "bb"⟩] : List Note).map (fun m =>
        if m.id = 3 ∧ m.userID = 1 then
          { m with title := trimSpace " new ", content := "nc" }
        else m) ∧
    ∃ m ∈ ([⟨3, 1, "old", "o"⟩, ⟨4, 2, "b", "bb"⟩] : List Note),
      m.id = 3 ∧ m.userID = 1 := by
  have h := updateNote_frame 1 "3" 3 ⟨" new ", "nc"⟩
    ⟨[⟨3, 1, "old", "o"⟩, ⟨4, 2, "b", "bb"⟩], 5⟩
    ⟨3, 1, "new", "nc"⟩ ⟨[⟨3, 1, "new", "nc"⟩, ⟨4, 2, "b", "bb"⟩], 5⟩
    (by decide) (by decide) (by decide) (by decide)
  exact ⟨h.1, h.2.1, h.2.2.2.2⟩

end NotesAuth

namespace TodosMem

open TodoApi

theorem take_append_drop_sublist {α : Type} (l : List α) (i : Nat) :
    (l.take i ++ l.drop (i + 1)).Sublist l := by
  rw [← List.eraseIdx_eq_take_drop_succ]
  exact List.eraseIdx_sublist l i

theorem updateFirst_map_id (id : Int) (ti : String) (d : Bool)
    (l : List Todo) :
    (updateFirst id ti d l).map (fun t => t.id) = l.map (fun t => t.id) := by
  induction l with
  | nil => rfl
  | cons t ts ih =>
    rw [updateFirst]
    by_cases h : t.id = id
    · rw [if_pos h]
      rfl
    · rw [if_neg h]
      simp [ih]

theorem updateTodoHandler_state (idStr : String) (b : Option TodoUpdateBody)
    (st : TodoState) :
    (updateTodoHandler idStr b st).2 = st ∨
    ∃ id ti d,
      (updateTodoHandler idStr b st).2 =
        ⟨updateFirst id ti d st.todos, st.nextID⟩ := by
  rw [updateTodoHandler]
  repeat' split
  all_goals first
    | (left; rfl)
    | (right; exact ⟨_, _, _, rfl⟩)

theorem deleteTodoHandler_state (idStr : String) (st : TodoState) :
    (deleteTodoHandler idStr st).2.todos.Sublist st.todos ∧
    (deleteTodoHandler idStr st).2.nextID = st.nextID := by
  rw [deleteTodoHandler]
  repeat' split
  all_goals refine ⟨?_, rfl⟩
  all_goals first
    | exact List.Sublist.refl _
    | exact take_append_drop_sublist _ _

theorem todoInv_update (idStr : String) (b : Option TodoUpdateBody)
    (st : TodoState) (h : TodoInv st) :
    TodoInv (updateTodoHandler idStr b st).2 ∧
    (updateTodoHandler idStr b st).2.nextID = st.nextID := by
  rcases updateTodoHandler_state idStr b st with he | ⟨id, ti, d, he⟩
  · rw [he]
    exact ⟨h, rfl⟩
  · rw [he]
    obtain ⟨h1, h2, h3⟩ := h
    refine ⟨⟨h1, ?_, ?_⟩, rfl⟩
    · show List.Pairwise _ ((updateFirst id ti d st.todos).map (fun t => t.id))
      rw [updateFirst_map_id]
      exact h2
    · intro t ht
      have hmm : t.id ∈ (updateFirst id ti d st.todos).map (fun t => t.id) :=
        List.mem_map_of_mem _ ht
      rw [updateFirst_map_id] at hmm
      obtain ⟨s, hs, hse⟩ := List.mem_map.mp hmm
      exact hse ▸ h3 s hs

theorem todoInv_delete (idStr : String) (st : TodoState) (h : TodoInv st) :
    TodoInv (deleteTodoHandler idStr st).2 := by
  obtain ⟨hsub, hnext⟩ := deleteTodoHandler_state idStr st
  obtain ⟨h1, h2, h3⟩ := h
  refine ⟨hnext ▸ h1, h2.sublist (hsub.map _), ?_⟩
  intro t ht
  rw [hnext]
  exact h3 t (hsub.subset ht)

theorem createTodo_success (b : TodoCreateBody) (st : TodoState)
    (h : trimSpace b.title ≠ "") :
    createTodoHandler (some b) st =
      (.created ⟨st.nextID, b.title, false⟩,
       ⟨st.todos ++ [⟨st.nextID, b.title, false⟩],
        wrap64 (st.nextID + 1)⟩) := by
  simp [createTodoHandler, h]

theorem todoInv_create_success (b : TodoCreateBody) (st : TodoState)
    (h : TodoInv st) (hseq : st.nextID + 1 < 2 ^ 63) :
    TodoInv ⟨st.todos ++ [⟨st.nextID, b.title, false⟩], st.nextID + 1⟩ := by
  obtain ⟨h1, h2, h3⟩ := h
  refine ⟨?_, ?_, ?_⟩
  · show (1 : Int) ≤ st.nextID + 1
    omega
  · show List.Pairwise (· < ·)
      ((st.todos ++ [(⟨st.nextID, b.title, false⟩ : Todo)]).map
        (fun t => t.id))
    rw [List.map_append, List.pairwise_append]
    refine ⟨h2, List.pairwise_singleton _ _, ?_⟩
    intro a ha c hc
    obtain ⟨s, hs, hse⟩ := List.mem_map.mp ha
    have hceq : c = st.nextID := by simpa using hc
    rw [hceq, ← hse]
    exact h3 s hs
  · intro t ht2
    show t.id < st.nextID + 1
    have ht3 : t ∈ st.todos ++ [⟨st.nextID, b.title, false⟩] := ht2
    rcases List.mem_append.mp ht3 with hin | hnew
    · have := h3 t hin
      omega
    · have hteq : t = ⟨st.nextID, b.title, false⟩ := by simpa using hnew
      rw [hteq]
      show st.nextID < st.nextID + 1
      omega

theorem updateTodoHandler_resp (s : String) (b : Option TodoUpdateBody)
    (st : TodoState) (t : Todo) :
    (updateTodoHandler s b st).1 ≠ .created t := by
  rw [updateTodoHandler]
  repeat' split
  all_goals simp

theorem deleteTodoHandler_resp (s : String) (st : TodoState) (t : Todo) :
    (deleteTodoHandler s st).1 ≠ .created t := by
  rw [deleteTodoHandler]
  repeat' split
  all_goals simp

theorem assignedId_update (s : String) (b : Option TodoUpdateBody)
    (st : TodoState) : assignedId (.updateOp s b) st = [] := by
  rw [assignedId]
  rcases hr : (todoStep (.updateOp s b) st).1 with m | m | t | t | _
  · rfl
  · rfl
  · exact absurd hr (updateTodoHandler_resp s b st t)
  · rfl
  · rfl

theorem assignedId_delete (s : String) (st : TodoState) :
    assignedId (.deleteOp s) st = [] := by
  rw [assignedId]
  rcases hr : (todoStep (.deleteOp s) st).1 with m | m | t | t | _
  · rfl
  · rfl
  · exact absurd hr (deleteTodoHandler_resp s st t)
  · rfl
  · rfl

theorem assignedId_create_none (st : TodoState) :
    assignedId (.createOp none) st = [] := rfl

theorem assignedId_create_blank (b : TodoCreateBody) (st : TodoState)
    (h : trimSpace b.title = "") :
    assignedId (.createOp (some b)) st = [] := by
  simp [assignedId, todoStep, createTodoHandler, h]

theorem assignedId_create_success (b : TodoCreateBody) (st : TodoState)
    (h : trimSpace b.title ≠ "") :
    assignedId (.createOp (some b)) st = [st.nextID] := by
  simp [assignedId, todoStep, createTodoHandler, h]

theorem todoExec_spec (ops : List TodoOp) : ∀ st : TodoState, TodoInv st →
    st.nextID + (numCreates ops : Int) < 2 ^ 63 →
    TodoInv (todoExec ops st) ∧
    st.nextID ≤ (todoExec ops st).nextID ∧
    List.Pairwise (· < ·) (execAssigned ops st) ∧
    (∀ i ∈ execAssigned ops st, st.nextID ≤ i) := by
  induction ops with
  | nil =>
    intro st h _
    exact ⟨h, le_refl _, List.Pairwise.nil, by simp [execAssigned]⟩
  | cons op ops ih =>
    intro st h hb
    simp only [todoExec, execAssigned]
    cases op with
    | updateOp s b =>
      obtain ⟨hinv, hnext⟩ := todoInv_update s b st h
      have hb2 : (todoStep (.updateOp s b) st).2.nextID +
          (numCreates ops : Int) < 2 ^ 63 := by
        have he : (todoStep (.updateOp s b) st).2.nextID = st.nextID := hnext
        have hnc : numCreates (.updateOp s b :: ops) = numCreates ops := rfl
        rw [he]
        rw [hnc] at hb
        exact hb
      obtain ⟨i1, i2, i3, i4⟩ := ih (todoStep (.updateOp s b) st).2 hinv hb2
      refine ⟨i1, ?_, ?_, ?_⟩
      · have he : (todoStep (.updateOp s b) st).2.nextID = st.nextID := hnext
        rw [← he]
        exact i2
      · rw [assignedId_update]
        simpa using i3
      · rw [assignedId_update]
        intro i hi
        have he : (todoStep (.updateOp s b) st).2.nextID = st.nextID := hnext
        rw [← he]
        exact i4 i (by simpa using hi)
    | deleteOp s =>
      have hinv : TodoInv (deleteTodoHandler s st).2 := todoInv_delete s st h
      have hnext : (deleteTodoHandler s st).2.nextID = st.nextID :=
        (deleteTodoHandler_state s st).2
      have hb2 : (todoStep (.deleteOp s) st).2.nextID +
          (numCreates ops : Int) < 2 ^ 63 := by
        have he : (todoStep (.deleteOp s) st).2.nextID = st.nextID := hnext
        have hnc : numCreates (.deleteOp s :: ops) = numCreates ops := rfl
        rw [he]
        rw [hnc] at hb
        exact hb
      obtain ⟨i1, i2, i3, i4⟩ := ih (todoStep (.deleteOp s) st).2 hinv hb2
      refine ⟨i1, ?_, ?_, ?_⟩
      · have he : (todoStep (.deleteOp s) st).2.nextID = st.nextID := hnext
        rw [← he]
        exact i2
      · rw [assignedId_delete]
        simpa using i3
      · rw [assignedId_delete]
        intro i hi
        have he : (todoStep (.deleteOp s) st).2.nextID = st.nextID := hnext
        rw [← he]
        exact i4 i (by simpa using hi)
    | createOp body =>
      have hnc : (numCreates (.createOp body :: ops) : Int) =
          (numCreates ops : Int) + 1 := by
        show ((numCreates ops + 1 : Nat) : Int) = (numCreates ops : Int) + 1
        push_cast
        rfl
      rcases body with _ | b
      · have hst : (todoStep (.createOp none) st).2 = st := rfl
        have hb2 : (todoStep (.createOp none) st).2.nextID +
            (numCreates ops : Int) < 2 ^ 63 := by
          rw [hst]
          rw [hnc] at hb
          omega
        obtain ⟨i1, i2, i3, i4⟩ := ih (todoStep (.createOp none) st).2
          (by rw [hst]; exact h) hb2
        refine ⟨i1, ?_, ?_, ?_⟩
        · rw [hst] at i2
          rw [hst]
          exact i2
        · rw [assignedId_create_none]
          simpa using i3
        · rw [assignedId_create_none]
          intro i hi
          have hii := i4 i (by simpa using hi)
          rw [hst] at hii
          exact hii
      · by_cases htr : trimSpace b.title = ""
        · have hst : (todoStep (.createOp (some b)) st).2 = st := by
            simp [todoStep, createTodoHandler, htr]
          have hb2 : (todoStep (.createOp (some b)) st).2.nextID +
              (numCreates ops : Int) < 2 ^ 63 := by
            rw [hst]
            rw [hnc] at hb
            omega
          obtain ⟨i1, i2, i3, i4⟩ := ih (todoStep (.createOp (some b)) st).2
            (by rw [hst]; exact h) hb2
          refine ⟨i1, ?_, ?_, ?_⟩
          · rw [hst] at i2
            rw [hst]
            exact i2
          · rw [assignedId_create_blank b st htr]
            simpa using i3
          · rw [assignedId_create_blank b st htr]
            intro i hi
            have hii := i4 i (by simpa using hi)
            rw [hst] at hii
            exact hii
        · have hseq : st.nextID + 1 < 2 ^ 63 := by
            rw [hnc] at hb
            have : (0 : Int) ≤ (numCreates ops : Int) := Int.natCast_nonneg _
            omega
          have hwrap : wrap64 (st.nextID + 1) = st.nextID + 1 :=
            wrap64_eq_of_bounds _ (by have := h.1; omega) hseq
          have hst : (todoStep (.createOp (some b)) st).2 =
              ⟨st.todos ++ [⟨st.nextID, b.title, false⟩], st.nextID + 1⟩ := by
            show (createTodoHandler (some b) st).2 = _
            rw [createTodo_success b st htr, hwrap]
          have hinv : TodoInv (todoStep (.createOp (some b)) st).2 := by
            rw [hst]
            exact todoInv_create_success b st h hseq
          have hb2 : (todoStep (.createOp (some b)) st).2.nextID +
              (numCreates ops : Int) < 2 ^ 63 := by
            rw [hst]
            show st.nextID + 1 + (numCreates ops : Int) < 2 ^ 63
            rw [hnc] at hb
            omega
          obtain ⟨i1, i2, i3, i4⟩ := ih (todoStep (.createOp (some b)) st).2
            hinv hb2
          have hnid : (todoStep (.createOp (some b)) st).2.nextID =
              st.nextID + 1 := by
            rw [hst]
          refine ⟨i1, ?_, ?_, ?_⟩
          · rw [hnid] at i2
            omega
          · rw [assignedId_create_success b st htr]
            refine List.pairwise_cons.mpr ⟨?_, i3⟩
            intro i hi
            have := i4 i hi
            rw [hnid] at this
            omega
          · rw [assignedId_create_success b st htr]
            intro i hi
            rcases List.mem_cons.mp hi with he | hm
            · omega
            · have := i4 i hm
              rw [hnid] at this
              omega

/-- Claim C10: in the in-memory todo variant, a successful create assigns
the current counter value as the new todo's id and increments the counter
(Go int wrap-around made explicit, and absent below 2^63); from any state
satisfying the invariant — as the initial state does — every reachable
state keeps the ids strictly increasing in slice order, hence unique; the
ids assigned along any request sequence (deletes included) are strictly
increasing, so an id is never reused even after the todo carrying it is
deleted; and delete keeps the surviving todos in their relative order (the
result is a sublist) without touching the counter. -/
theorem todo_id_discipline :
    (∀ (b : TodoCreateBody) (st : TodoState), trimSpace b.title ≠ "" →
      createTodoHandler (some b) st =
        (.created ⟨st.nextID, b.title, false⟩,
         ⟨st.todos ++ [⟨st.nextID, b.title, false⟩],
          wrap64 (st.nextID + 1)⟩)) ∧
    (∀ (b : TodoCreateBody) (st : TodoState), 1 ≤ st.nextID →
      st.nextID + 1 < 2 ^ 63 → trimSpace b.title ≠ "" →
      (createTodoHandler (some b) st).2.nextID = st.nextID + 1) ∧
    TodoInv initialTodoState ∧
    (∀ (ops : List TodoOp) (st : TodoState), TodoInv st →
      st.nextID + (numCreates ops : Int) < 2 ^ 63 →
      TodoInv (todoExec ops st) ∧
      List.Pairwise (· < ·) (execAssigned ops st)) ∧
    (∀ (idStr : String) (st : TodoState),
      (deleteTodoHandler idStr st).2.todos.Sublist st.todos ∧
      (deleteTodoHandler idStr st).2.nextID = st.nextID) := by
  refine ⟨createTodo_success, ?_, ?_, ?_, deleteTodoHandler_state⟩
  · intro b st h1 hseq ht
    rw [createTodo_success b st ht]
    show wrap64 (st.nextID + 1) = st.nextID + 1
    exact wrap64_eq_of_bounds _ (by omega) hseq
  · exact ⟨le_refl 1, List.Pairwise.nil, fun t ht => absurd ht
      (List.not_mem_nil t)⟩
  · intro ops st h hb
    obtain ⟨i1, _, i3, _⟩ := todoExec_spec ops st h hb
    exact ⟨i1, i3⟩

/-- Witness for C10: the first create gets id 1, and running
create/delete/create from the initial state preserves the invariant and
assigns strictly increasing ids (1 then 2) although the first todo was
deleted in between. -/
theorem todo_id_discipline_witness :
    createTodoHandler (some ⟨"a"⟩) initialTodoState =
      (.created ⟨1, "a", false⟩, ⟨[⟨1, "a", false⟩], wrap64 2⟩) ∧
    TodoInv (todoExec demoOps initialTodoState) ∧
    List.Pairwise (· < ·) (execAssigned demoOps initialTodoState) := by
  have h := todo_id_discipline
  have htrace := h.2.2.2.1 demoOps initialTodoState h.2.2.1 (by decide)
  exact ⟨h.1 ⟨"a"⟩ initialTodoState (by decide), htrace.1, htrace.2⟩

end TodosMem
